import Mathlib

/-!
Verification of `carl/ratios/cc.py`: the calibrated-classifier density-ratio
estimator (`CalibratedClassifierRatio`, here `CCEstimator`) and the
regressor-to-classifier adapter (`WrapAsClassifier`).

The embedding is shallow: numpy arrays become lists (a sample matrix is a
list of rows, a row a list of rationals), `predict_proba` outputs are pairs
of columns, and Python raises become `Except` errors.  Instance attributes
that a method may or may not have populated (`classes_`, `regressor_`,
`classifiers_`, `calibrators_`) are `Option`-valued fields of an explicit
state record; a method that can raise returns the state as it stood at the
raise, so partial mutation is observable.  External collaborators (the base
classifier or regressor, calibrators, distributions, fold splitters) are
records of the functions the source calls on them, per the narrow contracts
the source relies on: `clone(m).fit(X, y)` is a pure function of the data,
`rvs(k)` a pure function of `k`, a splitter a pure function producing the
(train, calibrate) index lists.  `check_X_y` is modelled as the sample-count
check on the already well-typed inputs, and `check_array` as the identity on
a well-typed matrix.
-/

namespace Carl

/-- A sample: one row of the matrix X, a vector of rational feature values. -/
abbrev Row : Type := List ℚ

/-- A fitted one-dimensional calibrator (KernelDensity / Histogram / custom
template), as `CalibratedClassifierRatio.predict` queries it: `pdf` and
`nnlf` evaluated pointwise at a classifier score. -/
structure FittedCal where
  pdf : ℚ → ℚ
  nnlf : ℚ → ℚ

/-- An unfitted one-dimensional calibrator: `fitC` models `.fit` on the
column of scores (the `reshape(-1, 1)` column is the list itself). -/
structure CalSpec where
  fitC : List ℚ → FittedCal

/-- A fitted binary classifier: `pp` models `predict_proba` on one row,
returning (column 0, column 1). -/
structure FittedCls where
  pp : Row → ℚ × ℚ

/-- The failures of this module's fit paths: `check_X_y` length mismatch,
the adapter's two-class ValueError, or a failure inside an external
collaborator's fit. -/
inductive ClsErr
  | shapeMismatch
  | cardinalityNot2
  | external
deriving DecidableEq, Repr

/-- An unfitted regressor collaborator: `fitR` models
`clone(regressor).fit(X, y)` followed by the fitted model's per-row
`predict` (the collaborator contract of §6: fit returns self, predict
returns bounded reals; here rationals). -/
structure RegSpec where
  fitR : List Row → List ℚ → (Row → ℚ)

/-- An unfitted classifier collaborator: `fitF` models
`clone(classifier).fit(X, y)` (which may raise) returning the fitted model;
`prefitted` is the already-trained state consulted when the caller's
classifier is used directly in prefit mode (`none` models an instance whose
fitted attributes were never set, so that scoring it raises). -/
structure ClsSpec where
  fitF : List Row → List ℤ → Except ClsErr FittedCls
  prefitted : Option FittedCls

/-- WrapAsClassifier instance state: the attributes `classes_` and
`regressor_` are absent until `fit` assigns them. -/
structure WrapState where
  classes_ : Option (List ℤ)
  regressor_ : Option (Row → ℚ)

/-- A freshly constructed WrapAsClassifier(regressor): neither fitted
attribute exists. -/
def WrapState.empty : WrapState := ⟨none, none⟩

/-- np.clip(p, 0., 1.). -/
def clip01 (x : ℚ) : ℚ := min (max x 0) 1

/-- Insertion into a sorted list of labels. -/
def insertInt (a : ℤ) : List ℤ → List ℤ
  | [] => [a]
  | b :: t => if a ≤ b then a :: b :: t else b :: insertInt a t

/-- Insertion sort on labels (structural, so concrete instances reduce). -/
def sortInts : List ℤ → List ℤ
  | [] => []
  | a :: t => insertInt a (sortInts t)

/-- LabelEncoder().fit(y).classes_: the distinct labels of y in sorted
order (np.unique). -/
def uniqueClasses (y : List ℤ) : List ℤ := sortInts y.dedup

/-- LabelEncoder().fit_transform(y).astype(float): each label replaced by
its index among the sorted distinct labels. -/
def encodeLabels (y : List ℤ) : List ℚ :=
  y.map fun v => ((uniqueClasses y).indexOf v : ℚ)

/-- WrapAsClassifier.fit with explicit instance state: `check_X_y`
(modelled as the sample-count check), label-encode y, raise ValueError when
the class count is not 2, store `classes_`, fit the cloned regressor, store
`regressor_`, return self.  On a raise the instance state is returned as it
stood: both raises come before either assignment. -/
def WrapAsClassifier.fit (reg : RegSpec) (s : WrapState)
    (X : List Row) (y : List ℤ) :
    WrapState × Except ClsErr (List ℤ × (Row → ℚ)) :=
  if X.length ≠ y.length then (s, .error .shapeMismatch)
  else
    let classes := uniqueClasses y
    let yEnc := encodeLabels y
    if classes.length ≠ 2 then (s, .error .cardinalityNot2)
    else
      let s₁ : WrapState := { s with classes_ := some classes }
      let f := reg.fitR X yEnc
      let s₂ : WrapState := { s₁ with regressor_ := some f }
      (s₂, .ok (classes, f))

/-- The probability rows WrapAsClassifier.predict_proba builds from the
fitted regressor f: per row, p = clip(f(row), 0, 1), column 0 = 1 - p,
column 1 = p. -/
def wrapProbas (f : Row → ℚ) (X : List Row) : List (ℚ × ℚ) :=
  X.map fun row => (1 - clip01 (f row), clip01 (f row))

/-- WrapAsClassifier.predict_proba: `check_array` (identity on the
well-typed matrix), then `self.regressor_.predict`; on an instance whose
`regressor_` was never assigned the attribute access raises. -/
def WrapAsClassifier.predictProba (s : WrapState) (X : List Row) :
    Except ClsErr (List (ℚ × ℚ)) :=
  match s.regressor_ with
  | none => .error .external
  | some f => .ok (wrapProbas f X)

/-- clone(WrapAsClassifier(reg)).fit(X, y) followed by the fitted wrapper's
predict_proba, as the cross-validated branch uses a regressor base model:
the clone is a fresh unfitted wrapper around the same regressor. -/
def wrapFitF (reg : RegSpec) (X : List Row) (y : List ℤ) :
    Except ClsErr FittedCls :=
  (WrapAsClassifier.fit reg WrapState.empty X y).2.map fun cf =>
    ⟨fun row => (1 - clip01 (cf.2 row), clip01 (cf.2 row))⟩

/-- The configured base estimator; the source dispatches on
isinstance(base_estimator, RegressorMixin). -/
inductive BaseEstimator
  | classifier (c : ClsSpec)
  | regressor (r : RegSpec)

/-- The base model as every downstream path sees it after resolution:
a fit operation and the fitted state a direct (uncloned) use would find. -/
structure Resolved where
  fitF : List Row → List ℤ → Except ClsErr FittedCls
  prefitted : Option FittedCls

/-- Base-model resolution at the top of CalibratedClassifierRatio.fit: a
RegressorMixin base is wrapped in a fresh WrapAsClassifier.  The wrapper's
own fit is never called on this fresh instance, so it has no `regressor_`
attribute and scoring it directly raises: `prefitted` is `none`. -/
def resolveBase : BaseEstimator → Resolved
  | .classifier c => ⟨c.fitF, c.prefitted⟩
  | .regressor r => ⟨wrapFitF r, none⟩

/-- The calibration configuration: the string tags or a template object. -/
inductive Calibration
  | kde
  | histogram
  | custom (template : CalSpec)

/-- CalibratedClassifierRatio._check_calibration: the tag "kde" yields two
default KernelDensity instances, "histogram" two
Histogram(bins=100, range=[(0,1)]) instances, anything else two clones of
the template.  KernelDensity and Histogram are external collaborators,
passed in as `kdeD` and `histD`; a clone of a template duplicates its
hyperparameters, hence the same `CalSpec` twice. -/
def checkCalibration (kdeD histD : CalSpec) : Calibration → CalSpec × CalSpec
  | .kde => (kdeD, kdeD)
  | .histogram => (histD, histD)
  | .custom t => (t, t)

/-- The cv configuration: the string "prefit", or (via check_cv on an
integer, a splitter object or None) a splitter producing the
(train, calibrate) index-list pairs from the data. -/
inductive CVSetting
  | prefit
  | splitter (split : List Row → List ℤ → List (List ℕ × List ℕ))

/-- A generative-mode distribution object: `rvs k` draws k samples
(collaborator contract of §6: the result has k rows). -/
structure Distribution where
  rvs : ℕ → List Row

/-- CalibratedClassifierRatio configuration, as stored by __init__. -/
structure CCEstimator where
  base_estimator : BaseEstimator
  calibration : Calibration
  cv : CVSetting
  decompose : Bool

/-- CalibratedClassifierRatio instance state: the ensemble attributes
`classifiers_` and `calibrators_`, absent until fit assigns them. -/
structure CCState where
  classifiers_ : Option (List FittedCls)
  calibrators_ : Option (List (FittedCal × FittedCal))

/-- The failures of CalibratedClassifierRatio.fit: the
argument-combination ValueError, scoring an unfitted classifier in prefit
mode, or a raise inside a fold's classifier fit. -/
inductive FitError
  | argCombination
  | notFitted
  | classifierFit (e : ClsErr)
deriving DecidableEq, Repr

/-- Data resolution at the top of CalibratedClassifierRatio.fit: use the
given X and y when both are present; otherwise, when numerator, denominator
and n_samples are all present, X = vstack(numerator.rvs(n_samples // 2),
denominator.rvs(n_samples // 2)) and y = np.zeros(n_samples) with
y[n_samples // 2 :] = 1; otherwise no mode is complete (`none`, the
ValueError). -/
def resolveData (X? : Option (List Row)) (y? : Option (List ℤ))
    (numerator denominator : Option Distribution) (n_samples : Option ℕ) :
    Option (List Row × List ℤ) :=
  match X?, y? with
  | some X, some y => some (X, y)
  | _, _ =>
    match numerator, denominator, n_samples with
    | some nu, some de, some n =>
        some (nu.rvs (n / 2) ++ de.rvs (n / 2),
              List.replicate (n / 2) 0 ++ List.replicate (n - n / 2) 1)
    | _, _, _ => none

/-- X[mask] for the boolean mask (y == v): the rows whose label is v
(positionwise; this equals numpy boolean masking when len X = len y). -/
def selectByLabel (X : List Row) (y : List ℤ) (v : ℤ) : List Row :=
  ((X.zip y).filter fun p => p.2 == v).map Prod.fst

/-- X[idx] for an integer index array: the rows gathered at the given
indices (splitter indices are in bounds by the fold contract of §6). -/
def gather {α : Type} (xs : List α) (idx : List ℕ) : List α :=
  idx.filterMap fun i => xs.get? i

/-- One iteration of the cross-validated branch's fold loop: clone the base
model fresh and fit it on the train subset; create the calibrator pair;
score the calibrate subset with predict_proba and take column 0; split the
scores by the calibrate subset's true labels; fit calibrator_num on the
label-0 scores and calibrator_den on the label-1 scores. -/
def foldStep (R : Resolved) (calCfg : Calibration) (kdeD histD : CalSpec)
    (X : List Row) (y : List ℤ) (fold : List ℕ × List ℕ) :
    Except FitError (FittedCls × (FittedCal × FittedCal)) :=
  match R.fitF (gather X fold.1) (gather y fold.1) with
  | .error e => .error (.classifierFit e)
  | .ok classifier =>
    let cpair := checkCalibration kdeD histD calCfg
    let Xcal := gather X fold.2
    let ycal := gather y fold.2
    let sNum := (selectByLabel Xcal ycal 0).map fun row => (classifier.pp row).1
    let sDen := (selectByLabel Xcal ycal 1).map fun row => (classifier.pp row).1
    .ok (classifier, (cpair.1.fitC sNum, cpair.2.fitC sDen))

/-- The fold loop of the cross-validated branch, appending each fold's
(classifier, calibrator-pair) entry to the accumulated ensemble lists; a
raise inside a fold returns the lists as accumulated so far. -/
def cvLoop (R : Resolved) (calCfg : Calibration) (kdeD histD : CalSpec)
    (X : List Row) (y : List ℤ) :
    List (List ℕ × List ℕ) → List FittedCls →
    List (FittedCal × FittedCal) → CCState × Except FitError Unit
  | [], cs, cals => (⟨some cs, some cals⟩, .ok ())
  | fold :: rest, cs, cals =>
    match foldStep R calCfg kdeD histD X y fold with
    | .error e => (⟨some cs, some cals⟩, .error e)
    | .ok entry =>
        cvLoop R calCfg kdeD histD X y rest (cs ++ [entry.1])
          (cals ++ [entry.2])

/-- The fitting phase of CalibratedClassifierRatio.fit, after data
resolution succeeded with samples X and labels y: `classifiers_` and
`calibrators_` are reset to []; the base model is resolved; then the prefit
branch (the caller's classifier used directly to score the full X split by
y, one calibrator pair fit from its output, one ensemble entry appended) or
the cross-validated branch (`cvLoop` over the splitter's folds) runs.
Nothing in this phase reads the pre-call instance state. -/
def fitWithData (est : CCEstimator) (kdeD histD : CalSpec)
    (X : List Row) (y : List ℤ) : CCState × Except FitError Unit :=
  let s₁ : CCState := ⟨some [], some []⟩
  let R := resolveBase est.base_estimator
  match est.cv with
  | .prefit =>
    match R.prefitted with
    | none => (s₁, .error .notFitted)
    | some classifier =>
      let cpair := checkCalibration kdeD histD est.calibration
      let sNum := (selectByLabel X y 0).map fun row => (classifier.pp row).1
      let sDen := (selectByLabel X y 1).map fun row => (classifier.pp row).1
      (⟨some [classifier], some [(cpair.1.fitC sNum, cpair.2.fitC sDen)]⟩,
       .ok ())
  | .splitter split =>
      cvLoop R est.calibration kdeD histD X y (split X y) [] []

/-- CalibratedClassifierRatio.fit with explicit instance state: data
resolution as in `resolveData` (the ValueError when no mode is complete,
raised before anything else runs, leaving the instance state untouched),
then the fitting phase `fitWithData`.  On a raise the instance state is
returned as it stood at the raise. -/
def CCEstimator.fit (est : CCEstimator) (kdeD histD : CalSpec) (s : CCState)
    (X? : Option (List Row)) (y? : Option (List ℤ))
    (numerator denominator : Option Distribution) (n_samples : Option ℕ) :
    CCState × Except FitError Unit :=
  match resolveData X? y? numerator denominator n_samples with
  | none => (s, .error .argCombination)
  | some (X, y) => fitWithData est kdeD histD X y

/-- The per-entry per-row term CalibratedClassifierRatio.predict adds:
p = the entry's classifier predict_proba column 0 at the row; in log mode
-calibrator_num.nnlf(p) + calibrator_den.nnlf(p), otherwise
calibrator_num.pdf(p) / calibrator_den.pdf(p). -/
def entryContribution (log : Bool)
    (entry : FittedCls × (FittedCal × FittedCal)) (row : Row) : ℚ :=
  let p := (entry.1.pp row).1
  if log then -entry.2.1.nnlf p + entry.2.2.nnlf p
  else entry.2.1.pdf p / entry.2.2.pdf p

/-- CalibratedClassifierRatio.predict on the fitted ensemble attributes:
r = np.zeros(len(X)); for each (classifier, calibrator-pair) entry of
zip(classifiers_, calibrators_), r += the entry's contribution vector;
return r / len(classifiers_). -/
def CCpredict (classifiers : List FittedCls)
    (calibrators : List (FittedCal × FittedCal)) (X : List Row)
    (log : Bool) : List ℚ :=
  let r0 : List ℚ := X.map fun _ => 0
  let r := (classifiers.zip calibrators).foldl
    (fun acc entry =>
      (acc.zip X).map fun az => az.1 + entryContribution log entry az.2) r0
  r.map fun v => v / (classifiers.length : ℚ)

/-- A constant regressor collaborator, for concrete instances. -/
def constReg : RegSpec := ⟨fun _ _ => fun _ => 1/2⟩

/-- A distribution whose rvs k draws k copies of the sample [0]. -/
def constDist : Distribution := ⟨fun k => List.replicate k [0]⟩

/-- A fitted classifier giving every row probability 1/2 for each class. -/
def halfCls : FittedCls := ⟨fun _ => (1/2, 1/2)⟩

/-- A fitted calibrator with pdf constantly 1 and nnlf constantly 0. -/
def oneCal : FittedCal := ⟨fun _ => 1, fun _ => 0⟩

/-- An unfitted calibrator collaborator fitting to `oneCal`. -/
def oneCalSpec : CalSpec := ⟨fun _ => oneCal⟩

/-- A classifier collaborator whose fit always raises. -/
def failCls : ClsSpec := ⟨fun _ _ => .error .external, none⟩

/-- An estimator configured with the always-failing classifier and a
one-fold splitter: train on index 0, calibrate on index 1. -/
def failEst : CCEstimator :=
  ⟨.classifier failCls, .custom oneCalSpec,
   .splitter fun _ _ => [([0], [1])], false⟩

/-- A pre-call instance state holding a one-entry ensemble from an earlier
fit. -/
def priorState : CCState := ⟨some [halfCls], some [(oneCal, oneCal)]⟩

/-- A default fold, for out-of-range list reads in statements. -/
def dummyFold : List ℕ × List ℕ := ([], [])

/-- A default fitted classifier, for out-of-range list reads in
statements. -/
def dummyCls : FittedCls := ⟨fun _ => (0, 0)⟩

/-- A regressor predict function with out-of-range output 2 (to exercise
clipping). -/
def twoReg : Row → ℚ := fun _ => 2

/-- A WrapAsClassifier state as left by a successful fit on two classes,
with `twoReg` as the fitted regressor. -/
def fittedWrap : WrapState := ⟨some [0, 1], some twoReg⟩

/-- A default ensemble entry, for out-of-range list reads in statements. -/
def dummyEntry : FittedCls × (FittedCal × FittedCal) :=
  (dummyCls, (⟨fun _ => 0, fun _ => 0⟩, ⟨fun _ => 0, fun _ => 0⟩))

theorem getD_map_div (l : List ℚ) (c : ℚ) (i : ℕ) :
    (l.map fun v => v / c).getD i 0 = l.getD i 0 / c := by
  induction l generalizing i with
  | nil => simp
  | cons a t ih =>
    cases i with
    | zero => simp
    | succ j => simpa using ih j

theorem getD_map_of_lt {α β : Type} (f : α → β) :
    ∀ (l : List α) (j : ℕ), j < l.length → ∀ (d : β) (de : α),
      (l.map f).getD j d = f (l.getD j de) := by
  intro l
  induction l with
  | nil => intro j hj; simp at hj
  | cons a t ih =>
    intro j hj d de
    cases j with
    | zero => simp
    | succ m => simpa using ih m (by simpa using hj) d de

theorem getD_zip_map_add {β : Type} (g : β → ℚ) (de : β) :
    ∀ (acc : List ℚ) (X : List β) (i : ℕ), i < acc.length → i < X.length →
      ((acc.zip X).map fun az => az.1 + g az.2).getD i 0
        = acc.getD i 0 + g (X.getD i de) := by
  intro acc
  induction acc with
  | nil => intro X i h1 _; simp at h1
  | cons a t ih =>
    intro X i h1 h2
    cases X with
    | nil => simp at h2
    | cons b u =>
      cases i with
      | zero => simp
      | succ j =>
        simpa using ih u j (by simpa using h1) (by simpa using h2)

theorem ccLoop_getD (log : Bool) (X : List Row) :
    ∀ (es : List (FittedCls × (FittedCal × FittedCal))) (acc : List ℚ),
      acc.length = X.length → ∀ i, i < X.length →
      (es.foldl (fun acc entry =>
          (acc.zip X).map fun az => az.1 + entryContribution log entry az.2)
        acc).getD i 0
        = acc.getD i 0
          + (es.map fun e => entryContribution log e (X.getD i [])).sum := by
  intro es
  induction es with
  | nil => intro acc h i hi; simp
  | cons e t ih =>
    intro acc h i hi
    simp only [List.foldl_cons, List.map_cons, List.sum_cons]
    rw [ih _ (by simp [h]) i hi,
        getD_zip_map_add (entryContribution log e) [] acc X i (by omega) hi]
    ring

theorem CCpredict_getD (cs : List FittedCls)
    (cals : List (FittedCal × FittedCal)) (X : List Row) (log : Bool)
    (i : ℕ) (hi : i < X.length) :
    (CCpredict cs cals X log).getD i 0
      = ((cs.zip cals).map fun e =>
          entryContribution log e (X.getD i [])).sum / (cs.length : ℚ) := by
  rw [show CCpredict cs cals X log
      = ((cs.zip cals).foldl (fun acc entry =>
            (acc.zip X).map fun az => az.1 + entryContribution log entry az.2)
          (X.map fun _ => 0)).map (fun v => v / (cs.length : ℚ)) from rfl]
  rw [getD_map_div, ccLoop_getD log X (cs.zip cals) (X.map fun _ => 0)
      (by simp) i hi]
  rw [getD_map_of_lt (fun _ => (0 : ℚ)) X i hi 0 []]
  ring

theorem foldStep_error_shape (R : Resolved) (calCfg : Calibration)
    (kdeD histD : CalSpec) (X : List Row) (y : List ℤ)
    (f : List ℕ × List ℕ) (e : FitError)
    (h : foldStep R calCfg kdeD histD X y f = .error e) :
    ∃ e0, e = .classifierFit e0 := by
  unfold foldStep at h
  split at h
  · exact ⟨_, (Except.error.inj h).symm⟩
  · simp at h

theorem foldStep_ok_fst (R : Resolved) (calCfg : Calibration)
    (kdeD histD : CalSpec) (X : List Row) (y : List ℤ)
    (f : List ℕ × List ℕ) (entry : FittedCls × (FittedCal × FittedCal))
    (h : foldStep R calCfg kdeD histD X y f = .ok entry) :
    R.fitF (gather X f.1) (gather y f.1) = .ok entry.1 := by
  unfold foldStep at h
  split at h
  · simp at h
  · rename_i classifier heq
    rw [heq]
    have := Except.ok.inj h
    rw [← this]

theorem cvLoop_cons_error (R : Resolved) (calCfg : Calibration)
    (kdeD histD : CalSpec) (X : List Row) (y : List ℤ)
    (f : List ℕ × List ℕ) (t : List (List ℕ × List ℕ))
    (cs : List FittedCls) (cals : List (FittedCal × FittedCal))
    (e : FitError) (hstep : foldStep R calCfg kdeD histD X y f = .error e) :
    cvLoop R calCfg kdeD histD X y (f :: t) cs cals
      = (⟨some cs, some cals⟩, .error e) := by
  conv_lhs => rw [cvLoop]
  rw [hstep]

theorem cvLoop_cons_ok (R : Resolved) (calCfg : Calibration)
    (kdeD histD : CalSpec) (X : List Row) (y : List ℤ)
    (f : List ℕ × List ℕ) (t : List (List ℕ × List ℕ))
    (cs : List FittedCls) (cals : List (FittedCal × FittedCal))
    (entry : FittedCls × (FittedCal × FittedCal))
    (hstep : foldStep R calCfg kdeD histD X y f = .ok entry) :
    cvLoop R calCfg kdeD histD X y (f :: t) cs cals
      = cvLoop R calCfg kdeD histD X y t (cs ++ [entry.1])
          (cals ++ [entry.2]) := by
  conv_lhs => rw [cvLoop]
  rw [hstep]

theorem cvLoop_ne_arg (R : Resolved) (calCfg : Calibration)
    (kdeD histD : CalSpec) (X : List Row) (y : List ℤ) :
    ∀ (folds : List (List ℕ × List ℕ)) (cs : List FittedCls)
      (cals : List (FittedCal × FittedCal)),
      (cvLoop R calCfg kdeD histD X y folds cs cals).2
        ≠ .error .argCombination := by
  intro folds
  induction folds with
  | nil => intro cs cals h; simp [cvLoop] at h
  | cons f t ih =>
    intro cs cals h
    cases hstep : foldStep R calCfg kdeD histD X y f with
    | error e =>
      rw [cvLoop_cons_error R calCfg kdeD histD X y f t cs cals e hstep] at h
      obtain ⟨e0, he0⟩ := foldStep_error_shape R calCfg kdeD histD X y f e hstep
      rw [he0] at h
      exact FitError.noConfusion (Except.error.inj h)
    | ok entry =>
      rw [cvLoop_cons_ok R calCfg kdeD histD X y f t cs cals entry hstep] at h
      exact ih _ _ h

theorem cvLoop_state (R : Resolved) (calCfg : Calibration)
    (kdeD histD : CalSpec) (X : List Row) (y : List ℤ) :
    ∀ (folds : List (List ℕ × List ℕ)) (cs : List FittedCls)
      (cals : List (FittedCal × FittedCal)), cs.length = cals.length →
      ∃ cs2 cals2,
        (cvLoop R calCfg kdeD histD X y folds cs cals).1
          = ⟨some cs2, some cals2⟩ ∧ cs2.length = cals2.length := by
  intro folds
  induction folds with
  | nil => intro cs cals h; exact ⟨cs, cals, rfl, h⟩
  | cons f t ih =>
    intro cs cals h
    cases hstep : foldStep R calCfg kdeD histD X y f with
    | error e =>
      rw [cvLoop_cons_error R calCfg kdeD histD X y f t cs cals e hstep]
      exact ⟨cs, cals, rfl, h⟩
    | ok entry =>
      rw [cvLoop_cons_ok R calCfg kdeD histD X y f t cs cals entry hstep]
      exact ih (cs ++ [entry.1]) (cals ++ [entry.2]) (by simp [h])

theorem cvLoop_ok_entries (R : Resolved) (calCfg : Calibration)
    (kdeD histD : CalSpec) (X : List Row) (y : List ℤ) :
    ∀ (folds : List (List ℕ × List ℕ)) (cs : List FittedCls)
      (cals : List (FittedCal × FittedCal)),
      (cvLoop R calCfg kdeD histD X y folds cs cals).2 = .ok () →
      ∃ ents : List (FittedCls × (FittedCal × FittedCal)),
        ents.length = folds.length ∧
        (∀ j, j < folds.length →
          foldStep R calCfg kdeD histD X y (folds.getD j dummyFold)
            = .ok (ents.getD j dummyEntry)) ∧
        (cvLoop R calCfg kdeD histD X y folds cs cals).1
          = ⟨some (cs ++ ents.map Prod.fst), some (cals ++ ents.map Prod.snd)⟩ := by
  intro folds
  induction folds with
  | nil =>
    intro cs cals _
    exact ⟨[], rfl, by intro j hj; simp at hj, by simp [cvLoop]⟩
  | cons f t ih =>
    intro cs cals hok
    cases hstep : foldStep R calCfg kdeD histD X y f with
    | error e =>
      rw [cvLoop_cons_error R calCfg kdeD histD X y f t cs cals e hstep] at hok
      simp at hok
    | ok entry =>
      rw [cvLoop_cons_ok R calCfg kdeD histD X y f t cs cals entry hstep]
        at hok ⊢
      obtain ⟨ents, hlen, hall, hstate⟩ :=
        ih (cs ++ [entry.1]) (cals ++ [entry.2]) hok
      refine ⟨entry :: ents, by simp [hlen], ?_, ?_⟩
      · intro j hj
        cases j with
        | zero => simpa using hstep
        | succ m =>
          have := hall m (by simpa using hj)
          simpa using this
      · rw [hstate]
        simp

theorem resolveData_none_iff (X? : Option (List Row)) (y? : Option (List ℤ))
    (nu de : Option Distribution) (n : Option ℕ) :
    resolveData X? y? nu de n = none ↔
      ¬(X?.isSome = true ∧ y?.isSome = true) ∧
        ¬(nu.isSome = true ∧ de.isSome = true ∧ n.isSome = true) := by
  cases X? <;> cases y? <;> cases nu <;> cases de <;> cases n <;>
    simp [resolveData]

theorem fitWithData_prefit_unfitted (be : BaseEstimator) (calC : Calibration)
    (dec : Bool) (kdeD histD : CalSpec) (X : List Row) (y : List ℤ)
    (hp : (resolveBase be).prefitted = none) :
    fitWithData ⟨be, calC, .prefit, dec⟩ kdeD histD X y
      = (⟨some [], some []⟩, .error .notFitted) := by
  simp only [fitWithData, hp]

theorem fitWithData_prefit_fitted (be : BaseEstimator) (calC : Calibration)
    (dec : Bool) (kdeD histD : CalSpec) (X : List Row) (y : List ℤ)
    (c : FittedCls) (hp : (resolveBase be).prefitted = some c) :
    fitWithData ⟨be, calC, .prefit, dec⟩ kdeD histD X y
      = (⟨some [c],
          some [((checkCalibration kdeD histD calC).1.fitC
                   ((selectByLabel X y 0).map fun row => (c.pp row).1),
                 (checkCalibration kdeD histD calC).2.fitC
                   ((selectByLabel X y 1).map fun row => (c.pp row).1))]⟩,
         .ok ()) := by
  simp only [fitWithData, hp]

theorem fitWithData_splitter (be : BaseEstimator) (calC : Calibration)
    (dec : Bool) (split : List Row → List ℤ → List (List ℕ × List ℕ))
    (kdeD histD : CalSpec) (X : List Row) (y : List ℤ) :
    fitWithData ⟨be, calC, .splitter split, dec⟩ kdeD histD X y
      = cvLoop (resolveBase be) calC kdeD histD X y (split X y) [] [] := by
  simp only [fitWithData]

theorem fitWithData_ne_arg (est : CCEstimator) (kdeD histD : CalSpec)
    (X : List Row) (y : List ℤ) :
    (fitWithData est kdeD histD X y).2 ≠ .error .argCombination := by
  obtain ⟨be, calC, cv, dec⟩ := est
  cases cv with
  | prefit =>
    intro h
    cases hp : (resolveBase be).prefitted with
    | none =>
      rw [fitWithData_prefit_unfitted be calC dec kdeD histD X y hp] at h
      exact FitError.noConfusion (Except.error.inj h)
    | some c =>
      rw [fitWithData_prefit_fitted be calC dec kdeD histD X y c hp] at h
      simp at h
  | splitter split =>
    intro h
    rw [fitWithData_splitter be calC dec split kdeD histD X y] at h
    exact cvLoop_ne_arg _ _ _ _ _ _ _ _ _ h

theorem fitWithData_state (est : CCEstimator) (kdeD histD : CalSpec)
    (X : List Row) (y : List ℤ) :
    ∃ cs cals, (fitWithData est kdeD histD X y).1 = ⟨some cs, some cals⟩ ∧
      cs.length = cals.length := by
  obtain ⟨be, calC, cv, dec⟩ := est
  cases cv with
  | prefit =>
    cases hp : (resolveBase be).prefitted with
    | none =>
      rw [fitWithData_prefit_unfitted be calC dec kdeD histD X y hp]
      exact ⟨[], [], rfl, rfl⟩
    | some c =>
      rw [fitWithData_prefit_fitted be calC dec kdeD histD X y c hp]
      exact ⟨[c],
        [((checkCalibration kdeD histD calC).1.fitC
            ((selectByLabel X y 0).map fun row => (c.pp row).1),
          (checkCalibration kdeD histD calC).2.fitC
            ((selectByLabel X y 1).map fun row => (c.pp row).1))], rfl, rfl⟩
  | splitter split =>
    rw [fitWithData_splitter be calC dec split kdeD histD X y]
    exact cvLoop_state _ _ _ _ _ _ _ [] [] rfl

theorem fit_eq_of_resolved (est : CCEstimator) (kdeD histD : CalSpec)
    (s : CCState) (X? : Option (List Row)) (y? : Option (List ℤ))
    (nu de : Option Distribution) (n : Option ℕ) (X : List Row)
    (y : List ℤ) (h : resolveData X? y? nu de n = some (X, y)) :
    est.fit kdeD histD s X? y? nu de n = fitWithData est kdeD histD X y := by
  unfold CCEstimator.fit
  rw [h]

theorem fit_eq_of_none (est : CCEstimator) (kdeD histD : CalSpec)
    (s : CCState) (X? : Option (List Row)) (y? : Option (List ℤ))
    (nu de : Option Distribution) (n : Option ℕ)
    (h : resolveData X? y? nu de n = none) :
    est.fit kdeD histD s X? y? nu de n = (s, .error .argCombination) := by
  unfold CCEstimator.fit
  rw [h]

theorem clip01_nonneg (x : ℚ) : 0 ≤ clip01 x := by
  unfold clip01
  exact le_min (le_max_right x 0) (by norm_num)

theorem clip01_le_one (x : ℚ) : clip01 x ≤ 1 := min_le_right _ _

/-- C1.  Generative-mode sampling evaluated at n_samples = 100 and at
n_samples = 101 with a concrete distribution.  At 100 the data is as the
claim states: 100 rows, labels 50 zeros then 50 ones.  At 101 the label
vector is 50 zeros then 51 ones, but only 2 * (101 // 2) = 100 rows are
drawn (each side draws n_samples // 2), so no 51-sample denominator-drawn
block exists and fewer than n_samples samples are drawn. -/
theorem generative_split_100_101 :
    (∃ X, resolveData none none (some constDist) (some constDist) (some 100)
        = some (X, List.replicate 50 0 ++ List.replicate 50 1)
        ∧ X.length = 100) ∧
    (∃ X, resolveData none none (some constDist) (some constDist) (some 101)
        = some (X, List.replicate 50 0 ++ List.replicate 51 1)
        ∧ X.length = 100) := by
  constructor
  · exact ⟨constDist.rvs 50 ++ constDist.rvs 50, rfl, by simp [constDist]⟩
  · exact ⟨constDist.rvs 50 ++ constDist.rvs 50, rfl, by simp [constDist]⟩

/-- C2.  The generative-mode invariant len(X) == len(y) fails at odd
n_samples: with n_samples = 101 the code builds X with 100 rows but y with
101 entries. -/
theorem generative_length_mismatch :
    ∃ X y, resolveData none none (some constDist) (some constDist) (some 101)
      = some (X, y) ∧ X.length = 100 ∧ y.length = 101 := by
  refine ⟨constDist.rvs 50 ++ constDist.rvs 50,
    List.replicate 50 0 ++ List.replicate 51 1, rfl, by simp [constDist],
    by simp⟩

/-- C5.  On a fitted WrapAsClassifier (a state whose regressor_ is
populated with f), predict_proba returns one probability row per input
row, with column 0 = 1 - clip(f(row), 0, 1) and column 1 = clip(f(row),
0, 1); every row sums to 1 and both entries lie in [0, 1]. -/
theorem wrap_predictProba_rows (s : WrapState) (f : Row → ℚ) (X : List Row)
    (hs : s.regressor_ = some f) :
    WrapAsClassifier.predictProba s X = .ok (wrapProbas f X) ∧
    (wrapProbas f X).length = X.length ∧
    (∀ j, j < X.length → (wrapProbas f X).getD j (0, 0)
        = (1 - clip01 (f (X.getD j [])), clip01 (f (X.getD j [])))) ∧
    (∀ pr ∈ wrapProbas f X,
        pr.1 + pr.2 = 1 ∧ 0 ≤ pr.1 ∧ pr.1 ≤ 1 ∧ 0 ≤ pr.2 ∧ pr.2 ≤ 1) := by
  refine ⟨by simp [WrapAsClassifier.predictProba, hs], by simp [wrapProbas],
    ?_, ?_⟩
  · intro j hj
    exact getD_map_of_lt _ X j hj (0, 0) []
  · intro pr hpr
    simp only [wrapProbas, List.mem_map] at hpr
    obtain ⟨row, _, hrow⟩ := hpr
    have h0 := clip01_nonneg (f row)
    have h1 := clip01_le_one (f row)
    rw [← hrow]
    dsimp only
    refine ⟨by ring, by linarith, by linarith, h0, h1⟩

/-- C5 witness: the fitted wrapper state `fittedWrap` (regressor output
constantly 2, clipped to 1) on the one-row input [[5]]. -/
theorem wrap_predictProba_rows_witness :
    WrapAsClassifier.predictProba fittedWrap [[5]]
        = .ok (wrapProbas twoReg [[5]]) ∧
    (wrapProbas twoReg [[5]]).length = ([[5]] : List Row).length ∧
    (∀ j, j < ([[5]] : List Row).length →
        (wrapProbas twoReg [[5]]).getD j (0, 0)
          = (1 - clip01 (twoReg (([[5]] : List Row).getD j [])),
             clip01 (twoReg (([[5]] : List Row).getD j [])))) ∧
    (∀ pr ∈ wrapProbas twoReg [[5]],
        pr.1 + pr.2 = 1 ∧ 0 ≤ pr.1 ∧ pr.1 ≤ 1 ∧ 0 ≤ pr.2 ∧ pr.2 ≤ 1) :=
  wrap_predictProba_rows fittedWrap twoReg [[5]] rfl

/-- C6 counterexample to the stated iff: with X = [[0]] and y = [0, 1]
the encoded label set has cardinality exactly 2, yet WrapAsClassifier.fit
raises (check_X_y rejects the shape: 1 row of X against 2 labels). -/
theorem wrapFit_iff_cex :
    (∃ e, (WrapAsClassifier.fit constReg WrapState.empty [[0]] [0, 1]).2
        = .error e) ∧
    (uniqueClasses [0, 1]).length = 2 :=
  ⟨⟨.shapeMismatch, rfl⟩, by decide⟩

/-- C6 (amended).  For shape-valid inputs (len X = len y),
WrapAsClassifier.fit raises a validation error iff the encoded label set
of y has cardinality different from 2; any error is the cardinality
ValueError and is raised before populating any fitted state: the instance
state is returned unchanged. -/
theorem wrapFit_validation (reg : RegSpec) (s : WrapState) (X : List Row)
    (y : List ℤ) (h : X.length = y.length) :
    ((∃ e, (WrapAsClassifier.fit reg s X y).2 = .error e)
        ↔ (uniqueClasses y).length ≠ 2) ∧
    (∀ e, (WrapAsClassifier.fit reg s X y).2 = .error e →
        e = .cardinalityNot2 ∧ (WrapAsClassifier.fit reg s X y).1 = s) := by
  have hne : ¬(X.length ≠ y.length) := by omega
  by_cases hc : (uniqueClasses y).length = 2
  · have hfit : WrapAsClassifier.fit reg s X y
        = (⟨some (uniqueClasses y), some (reg.fitR X (encodeLabels y))⟩,
           .ok (uniqueClasses y, reg.fitR X (encodeLabels y))) := by
      simp only [WrapAsClassifier.fit]
      rw [if_neg hne, if_neg (by omega)]
    rw [hfit]
    constructor
    · simp [hc]
    · intro e he
      simp at he
  · have hfit : WrapAsClassifier.fit reg s X y
        = (s, .error .cardinalityNot2) := by
      simp only [WrapAsClassifier.fit]
      rw [if_neg hne, if_pos hc]
    rw [hfit]
    constructor
    · simp [hc]
    · intro e he
      exact ⟨(Except.error.inj he).symm, rfl⟩

/-- C6 witness: a shape-valid input with a single class; fit raises the
cardinality error and leaves the empty instance state unchanged. -/
theorem wrapFit_validation_witness :
    ((∃ e, (WrapAsClassifier.fit constReg WrapState.empty [[0]] [5]).2
        = .error e) ↔ (uniqueClasses [5]).length ≠ 2) ∧
    (∀ e, (WrapAsClassifier.fit constReg WrapState.empty [[0]] [5]).2
        = .error e →
      e = .cardinalityNot2 ∧
        (WrapAsClassifier.fit constReg WrapState.empty [[0]] [5]).1
          = WrapState.empty) :=
  wrapFit_validation constReg WrapState.empty [[0]] [5] rfl

/-- C7.  CalibratedClassifierRatio.fit raises the argument-combination
ValueError exactly when neither input mode is complete (not both X and y,
and not all of numerator, denominator, n_samples), and when it does so the
instance state is returned unchanged: the check precedes every other step
of fit. -/
theorem fit_arg_validation : ∀ (est : CCEstimator) (kdeD histD : CalSpec)
    (s : CCState) (X? : Option (List Row)) (y? : Option (List ℤ))
    (nu de : Option Distribution) (n : Option ℕ),
    ((est.fit kdeD histD s X? y? nu de n).2 = .error .argCombination ↔
      ¬(X?.isSome = true ∧ y?.isSome = true) ∧
        ¬(nu.isSome = true ∧ de.isSome = true ∧ n.isSome = true)) ∧
    ((est.fit kdeD histD s X? y? nu de n).2 = .error .argCombination →
      (est.fit kdeD histD s X? y? nu de n).1 = s) := by
  intro est kdeD histD s X? y? nu de n
  rw [← resolveData_none_iff X? y? nu de n]
  cases hd : resolveData X? y? nu de n with
  | none =>
    rw [fit_eq_of_none est kdeD histD s X? y? nu de n hd]
    exact ⟨by simp [hd], fun _ => rfl⟩
  | some d =>
    obtain ⟨X, y⟩ := d
    rw [fit_eq_of_resolved est kdeD histD s X? y? nu de n X y hd]
    constructor
    · constructor
      · intro h
        exact absurd h (fitWithData_ne_arg est kdeD histD X y)
      · intro h
        exact Option.noConfusion h
    · intro h
      exact absurd h (fitWithData_ne_arg est kdeD histD X y)

/-- C3 counterexample to atomicity: an estimator whose base classifier
fails to fit, one fold, and a pre-call state holding a one-entry ensemble.
fit raises (a fold classifier-fit failure), yet the ensemble state after
the call is the reset empty ensemble, not the pre-call state. -/
theorem fit_atomicity_cex :
    (failEst.fit oneCalSpec oneCalSpec priorState (some [[0], [1]])
        (some [0, 1]) none none none).2 = .error (.classifierFit .external) ∧
    (failEst.fit oneCalSpec oneCalSpec priorState (some [[0], [1]])
        (some [0, 1]) none none none).1.classifiers_ = some [] ∧
    priorState.classifiers_ ≠ some [] := by
  refine ⟨rfl, rfl, ?_⟩
  simp [priorState]

/-- C3 (amended).  When fit raises the argument-combination validation
error it has mutated nothing: the pre-call state is returned.  On every
other outcome (success or a failure during the fitting phase) both
ensemble attributes are populated, with equally many classifiers and
calibrator pairs: a fitting-phase failure leaves the reset, partially
populated ensemble rather than the pre-call state. -/
theorem fit_ensemble_population : ∀ (est : CCEstimator)
    (kdeD histD : CalSpec) (s : CCState) (X? : Option (List Row))
    (y? : Option (List ℤ)) (nu de : Option Distribution) (n : Option ℕ),
    ((est.fit kdeD histD s X? y? nu de n).2 = .error .argCombination →
      (est.fit kdeD histD s X? y? nu de n).1 = s) ∧
    ((est.fit kdeD histD s X? y? nu de n).2 ≠ .error .argCombination →
      ∃ cs cals, (est.fit kdeD histD s X? y? nu de n).1
          = ⟨some cs, some cals⟩ ∧ cs.length = cals.length) := by
  intro est kdeD histD s X? y? nu de n
  cases hd : resolveData X? y? nu de n with
  | none =>
    rw [fit_eq_of_none est kdeD histD s X? y? nu de n hd]
    exact ⟨fun _ => rfl, fun h => absurd rfl h⟩
  | some d =>
    obtain ⟨X, y⟩ := d
    rw [fit_eq_of_resolved est kdeD histD s X? y? nu de n X y hd]
    exact ⟨fun h => absurd h (fitWithData_ne_arg est kdeD histD X y),
      fun _ => fitWithData_state est kdeD histD X y⟩

/-- C10.  With a regressor base model and cv = "prefit", fit wraps the
regressor in a fresh WrapAsClassifier whose fit is never called, so the
prefit scoring call finds no fitted regressor_ and raises: fit never
returns successfully, and whenever the data arguments are complete the
raise is exactly the unfitted-scoring failure. -/
theorem prefit_regressor_never_fits : ∀ (r : RegSpec) (calC : Calibration)
    (dec : Bool) (kdeD histD : CalSpec) (s : CCState)
    (X? : Option (List Row)) (y? : Option (List ℤ))
    (nu de : Option Distribution) (n : Option ℕ),
    ((CCEstimator.mk (.regressor r) calC .prefit dec).fit kdeD histD s
        X? y? nu de n).2 ≠ .ok () ∧
    (∀ X y, ((CCEstimator.mk (.regressor r) calC .prefit dec).fit kdeD histD
        s (some X) (some y) nu de n)
      = (⟨some [], some []⟩, .error .notFitted)) := by
  intro r calC dec kdeD histD s X? y? nu de n
  have hw : ∀ X y, fitWithData ⟨.regressor r, calC, .prefit, dec⟩ kdeD histD
      X y = (⟨some [], some []⟩, .error .notFitted) := fun X y =>
    fitWithData_prefit_unfitted (.regressor r) calC dec kdeD histD X y rfl
  constructor
  · cases hd : resolveData X? y? nu de n with
    | none =>
      rw [fit_eq_of_none _ kdeD histD s X? y? nu de n hd]
      simp
    | some d =>
      obtain ⟨X, y⟩ := d
      rw [fit_eq_of_resolved _ kdeD histD s X? y? nu de n X y hd, hw X y]
      simp
  · intro X y
    rw [fit_eq_of_resolved _ kdeD histD s (some X) (some y) nu de n X y rfl,
      hw X y]

/-- C8.  Ensemble structure after a successful fit on direct data.  In
prefit mode the ensemble is exactly one entry holding the caller's own
(already trained) classifier, with the calibrator pair fit from its scores
over the entire X split by y (no train/calibrate split).  In
cross-validated mode with k folds the ensemble has exactly k classifiers
and k calibrator pairs, and the j-th classifier is the result of fitting a
fresh clone of the base model on the j-th fold's train subset only. -/
theorem fit_ensemble_structure :
    (∀ (est : CCEstimator) (kdeD histD : CalSpec) (s : CCState)
        (X : List Row) (y : List ℤ) (c : FittedCls),
        est.cv = .prefit →
        (resolveBase est.base_estimator).prefitted = some c →
        est.fit kdeD histD s (some X) (some y) none none none
          = (⟨some [c],
              some [((checkCalibration kdeD histD est.calibration).1.fitC
                       ((selectByLabel X y 0).map fun row => (c.pp row).1),
                     (checkCalibration kdeD histD est.calibration).2.fitC
                       ((selectByLabel X y 1).map fun row => (c.pp row).1))]⟩,
             .ok ())) ∧
    (∀ (est : CCEstimator) (kdeD histD : CalSpec) (s : CCState)
        (X : List Row) (y : List ℤ)
        (split : List Row → List ℤ → List (List ℕ × List ℕ)),
        est.cv = .splitter split →
        (est.fit kdeD histD s (some X) (some y) none none none).2 = .ok () →
        ∃ cs cals,
          (est.fit kdeD histD s (some X) (some y) none none none).1
            = ⟨some cs, some cals⟩ ∧
          cs.length = (split X y).length ∧
          cals.length = (split X y).length ∧
          ∀ j, j < (split X y).length →
            (resolveBase est.base_estimator).fitF
                (gather X ((split X y).getD j dummyFold).1)
                (gather y ((split X y).getD j dummyFold).1)
              = .ok (cs.getD j dummyCls)) := by
  constructor
  · intro est kdeD histD s X y c hcv hpre
    obtain ⟨be, calC, cv, dec⟩ := est
    have hcv2 : cv = .prefit := hcv
    subst hcv2
    rw [fit_eq_of_resolved _ kdeD histD s (some X) (some y) none none none
      X y rfl]
    exact fitWithData_prefit_fitted be calC dec kdeD histD X y c hpre
  · intro est kdeD histD s X y split hcv hok
    obtain ⟨be, calC, cv, dec⟩ := est
    have hcv2 : cv = .splitter split := hcv
    subst hcv2
    rw [fit_eq_of_resolved _ kdeD histD s (some X) (some y) none none none
      X y rfl] at hok ⊢
    rw [fitWithData_splitter be calC dec split kdeD histD X y] at hok ⊢
    obtain ⟨ents, hlen, hall, hstate⟩ := cvLoop_ok_entries (resolveBase be)
      calC kdeD histD X y (split X y) [] [] hok
    refine ⟨ents.map Prod.fst, ents.map Prod.snd, ?_, by simp [hlen],
      by simp [hlen], ?_⟩
    · rw [hstate]
      simp
    · intro j hj
      have h2 := foldStep_ok_fst (resolveBase be) calC kdeD histD X y
        ((split X y).getD j dummyFold) (ents.getD j dummyEntry) (hall j hj)
      rw [getD_map_of_lt Prod.fst ents j (by omega) dummyCls dummyEntry]
      exact h2

/-- C4.  CalibratedClassifierRatio.predict on a fitted ensemble (equally
many classifiers and calibrator pairs) returns, per point, the arithmetic
mean over the ensemble entries of the per-entry contribution at
p = the entry's predict_proba column 0: in log mode
-calibrator_num.nnlf(p) + calibrator_den.nnlf(p), otherwise
calibrator_num.pdf(p) / calibrator_den.pdf(p). -/
theorem predict_is_mean_of_contributions (cs : List FittedCls)
    (cals : List (FittedCal × FittedCal)) (X : List Row) (log : Bool)
    (i : ℕ) (hlen : cs.length = cals.length) (hi : i < X.length) :
    (cs.zip cals).length = cs.length ∧
    (CCpredict cs cals X log).getD i 0
      = ((cs.zip cals).map fun e =>
          if log then
            -e.2.1.nnlf ((e.1.pp (X.getD i [])).1)
              + e.2.2.nnlf ((e.1.pp (X.getD i [])).1)
          else
            e.2.1.pdf ((e.1.pp (X.getD i [])).1)
              / e.2.2.pdf ((e.1.pp (X.getD i [])).1)).sum
        / (cs.length : ℚ) := by
  constructor
  · rw [List.length_zip, hlen, min_self]
  · exact CCpredict_getD cs cals X log i hi

/-- C4 witness: a one-entry ensemble evaluated at the single input row. -/
theorem predict_is_mean_witness :
    ([halfCls].zip [(oneCal, oneCal)]).length
        = ([halfCls] : List FittedCls).length ∧
    (CCpredict [halfCls] [(oneCal, oneCal)] [[0]] false).getD 0 0
      = (([halfCls].zip [(oneCal, oneCal)]).map fun e =>
          if false then
            -e.2.1.nnlf ((e.1.pp (([[0]] : List Row).getD 0 [])).1)
              + e.2.2.nnlf ((e.1.pp (([[0]] : List Row).getD 0 [])).1)
          else
            e.2.1.pdf ((e.1.pp (([[0]] : List Row).getD 0 [])).1)
              / e.2.2.pdf ((e.1.pp (([[0]] : List Row).getD 0 [])).1)).sum
        / (([halfCls] : List FittedCls).length : ℚ) :=
  predict_is_mean_of_contributions [halfCls] [(oneCal, oneCal)] [[0]] false 0
    rfl (by decide)

/-- C9.  For a calibrator pair satisfying nnlf = -log pdf at the queried
score p, with both pdf values positive there, the log-mode contribution
-nnlf_num(p) + nnlf_den(p) equals log(pdf_num(p) / pdf_den(p)); hence on a
one-entry ensemble, exp of predict(X, log=True) equals predict(X,
log=False) pointwise. -/
theorem log_mode_agrees (c : FittedCls) (cn cd : FittedCal) (X : List Row)
    (i : ℕ) (p : ℚ) (hi : i < X.length) (hp : p = (c.pp (X.getD i [])).1)
    (hn : ((cn.nnlf p : ℚ) : ℝ) = -Real.log ((cn.pdf p : ℚ) : ℝ))
    (hd : ((cd.nnlf p : ℚ) : ℝ) = -Real.log ((cd.pdf p : ℚ) : ℝ))
    (hpn : 0 < cn.pdf p) (hpd : 0 < cd.pdf p) :
    ((-cn.nnlf p + cd.nnlf p : ℚ) : ℝ)
        = Real.log (((cn.pdf p : ℚ) : ℝ) / ((cd.pdf p : ℚ) : ℝ)) ∧
    Real.exp (((CCpredict [c] [(cn, cd)] X true).getD i 0 : ℚ) : ℝ)
        = (((CCpredict [c] [(cn, cd)] X false).getD i 0 : ℚ) : ℝ) := by
  subst hp
  have hpn' : (((cn.pdf ((c.pp (X.getD i [])).1) : ℚ) : ℝ)) ≠ 0 :=
    ne_of_gt (by exact_mod_cast hpn)
  have hpd' : (((cd.pdf ((c.pp (X.getD i [])).1) : ℚ) : ℝ)) ≠ 0 :=
    ne_of_gt (by exact_mod_cast hpd)
  have hmain : ((-cn.nnlf ((c.pp (X.getD i [])).1)
        + cd.nnlf ((c.pp (X.getD i [])).1) : ℚ) : ℝ)
      = Real.log (((cn.pdf ((c.pp (X.getD i [])).1) : ℚ) : ℝ)
          / ((cd.pdf ((c.pp (X.getD i [])).1) : ℚ) : ℝ)) := by
    push_cast
    rw [hn, hd, Real.log_div hpn' hpd']
    ring
  refine ⟨hmain, ?_⟩
  rw [CCpredict_getD [c] [(cn, cd)] X true i hi,
    CCpredict_getD [c] [(cn, cd)] X false i hi]
  simp only [List.zip_cons_cons, List.zip_nil_right, List.map_cons,
    List.map_nil, List.sum_cons, List.sum_nil, entryContribution,
    List.length_cons, List.length_nil, add_zero, if_true,
    Bool.false_eq_true, if_false, Nat.zero_add, Nat.cast_one, div_one]
  rw [hmain, Real.exp_log (div_pos (by exact_mod_cast hpn)
    (by exact_mod_cast hpd))]
  push_cast
  rfl

/-- C9 witness: the constant calibrator pair (pdf = 1, nnlf = 0), a
half-half classifier and a single input row. -/
theorem log_mode_agrees_witness :
    ((-oneCal.nnlf (1/2) + oneCal.nnlf (1/2) : ℚ) : ℝ)
        = Real.log (((oneCal.pdf (1/2) : ℚ) : ℝ)
            / ((oneCal.pdf (1/2) : ℚ) : ℝ)) ∧
    Real.exp (((CCpredict [halfCls] [(oneCal, oneCal)] [[0]] true).getD 0 0
          : ℚ) : ℝ)
        = (((CCpredict [halfCls] [(oneCal, oneCal)] [[0]] false).getD 0 0
          : ℚ) : ℝ) :=
  log_mode_agrees halfCls oneCal oneCal [[0]] 0 (1/2) (by decide) rfl
    (by simp [oneCal]) (by simp [oneCal]) (by norm_num [oneCal])
    (by norm_num [oneCal])

end Carl
